import Mathlib

/-!
# Verification of the `op` transport-chain dispatcher

A shallow embedding, in Lean 4, of the pure decision logic of the `op`
command dispatcher (repository `organic-programming/op`):

* the transport selector (`internal/cli/transport_chain.go`),
* the holon binary resolver (`internal/cli/commands.go`, `resolveHolon`),
* the verb → RPC mapper (`internal/cli/commands.go`,
  `mapHolonCommandToRPC`, `mapCommandNameToMethod`, `looksLikeJSON`),
* the holon dispatch routing (`internal/cli/commands.go`, `cmdHolon`) and
  the in-memory composition registry (`internal/cli/mem_compose.go`),
* the reflection dependency stitcher shared by
  `internal/grpcclient/client.go` (`resolveService`) and
  `internal/cli/stdio_compose.go` (`resolveReflectedService`),
* the single-use dialers of `internal/grpcclient/client.go`
  (`DialStdio`, `DialWebSocket`).

Filesystem reads, YAML parsing, process spawning and the actual gRPC wire
exchange are modelled as explicit inputs (an environment record and a
server oracle); every decision made *on* those inputs is translated
statement-by-statement from the Go source.  `strings.EqualFold`,
`strings.ToLower` and `strings.TrimSpace` are modelled by their ASCII
behaviour (the claims only exercise ASCII data); `filepath.Join` of
non-empty components is modelled by `/`-concatenation (no path cleaning
is exercised by the claims).
-/

namespace OP

/-- The opening-brace character `{` (written numerically so that brace
characters never appear inside literals). -/
def lbrace : Char := Char.ofNat 123

/-- The closing-brace character `}`. -/
def rbrace : Char := Char.ofNat 125

/-- The string `"{"`. -/
def lbraceS : String := String.mk [lbrace]

/-- The string `"}"`. -/
def rbraceS : String := String.mk [rbrace]

/-- Whitespace as recognised by Go's `strings.TrimSpace` (ASCII part):
space, tab, newline, vertical tab, form feed, carriage return. -/
def goSpace (c : Char) : Bool :=
  c == ' ' || c == '\t' || c == '\n' || c == Char.ofNat 11 ||
  c == Char.ofNat 12 || c == '\r'

/-- Drop leading whitespace characters. -/
def dropLeadingWs : List Char → List Char
  | [] => []
  | c :: rest => if goSpace c then dropLeadingWs rest else c :: rest

/-- Trim leading and trailing whitespace from a character list. -/
def trimChars (l : List Char) : List Char :=
  dropLeadingWs ((dropLeadingWs l.reverse).reverse)

/-- Go `strings.TrimSpace` (ASCII model). -/
def trimSpace (s : String) : String := String.mk (trimChars s.data)

/-- Does `s` start with the character pattern `pat`? -/
def startsWithChars : List Char → List Char → Bool
  | _, [] => true
  | [], _ :: _ => false
  | c :: cs, p :: ps => c == p && startsWithChars cs ps

/-- Does the character pattern `pat` occur anywhere in `s`? -/
def containsChars : List Char → List Char → Bool
  | [], pat => pat.isEmpty
  | s@(_ :: rest), pat => startsWithChars s pat || containsChars rest pat

/-- Substring occurrence test, used to state "stderr contains …"
claims. -/
def containsSub (s pat : String) : Bool := containsChars s.data pat.data

/-- `strings.ToLower` (ASCII model), computed on the character list so
that it evaluates inside the kernel. -/
def toLowerStr (s : String) : String := String.mk (s.data.map Char.toLower)

/-- `strings.HasPrefix`. -/
def hasPre (s pre : String) : Bool := startsWithChars s.data pre.data

/-- `strings.HasSuffix`. -/
def hasSuf (s suf : String) : Bool :=
  startsWithChars s.data.reverse suf.data.reverse

/-- `strings.EqualFold` (ASCII model): case-insensitive string equality. -/
def eqFold (a b : String) : Bool := toLowerStr a == toLowerStr b

/-! ## Transport factory scheme extraction

From `pkg/transport` (vendored in this repository's source tree):

```go
func Scheme(uri string) string {
    if i := strings.Index(uri, "://"); i >= 0 {
        return uri[:i]
    }
    return uri
}
```
-/

/-- The characters strictly before the first occurrence of `"://"`
(`none` when the separator does not occur). -/
def takeUntilSep : List Char → Option (List Char)
  | [] => none
  | c :: rest =>
    if startsWithChars (c :: rest) [':', '/', '/'] then some []
    else (takeUntilSep rest).map (fun pre2 => c :: pre2)

/-- `transport.Scheme`: the substring up to the first `"://"`, or the
whole string when no `"://"` occurs. -/
def transportScheme (uri : String) : String :=
  match takeUntilSep uri.data with
  | some before => String.mk before
  | none => uri

/-! ## `.holonconfig` model and override lookup

`lookupTransportOverride` reads `.holonconfig`, YAML-parses it into
`map[string]any`, and probes two shapes.  We model the *parsed* YAML
document; reading and parsing are outside the embedding (`Env.config =
none` models an absent file).  Go map iteration order is modelled by
list order. -/

/-- A parsed YAML value as seen through Go's `map[string]any` decoding:
a string, a nested string-keyed map, or anything else. -/
inductive YamlVal where
  | str (s : String)
  | map (entries : List (String × YamlVal))
  | other
  deriving Repr

/-- A parsed top-level `.holonconfig` document. -/
abbrev Yaml := List (String × YamlVal)

/-- `supportedTransportSchemes` from `transport_chain.go`. -/
def supportedTransportSchemes : List String :=
  ["mem", "stdio", "tcp", "unix", "ws", "wss"]

/-- `lookupDotTransportKey`: scan for a key case-insensitively equal to
`"transport." ++ holonName`; on the first hit return the trimmed string
value (or `("", false)` when the value is not a string). -/
def lookupDotTransportKey (cfg : Yaml) (holonName : String) : String × Bool :=
  match cfg.find? (fun kv => eqFold kv.1 ("transport." ++ holonName)) with
  | some (_, YamlVal.str s) => (trimSpace s, true)
  | some (_, _) => ("", false)
  | none => ("", false)

/-- `lookupNestedTransportKey`: find the first key case-insensitively
equal to `"transport"`; when its value is a map, scan that map for a key
case-insensitively equal to the holon name. -/
def lookupNestedTransportKey (cfg : Yaml) (holonName : String) : String × Bool :=
  match cfg.find? (fun kv => eqFold kv.1 "transport") with
  | some (_, YamlVal.map entries) =>
    match entries.find? (fun kv => eqFold kv.1 holonName) with
    | some (_, YamlVal.str s) => (trimSpace s, true)
    | some (_, _) => ("", false)
    | none => ("", false)
  | some (_, _) => ("", false)
  | none => ("", false)

/-- The scheme `normalizeTransportScheme` computes from an override
value: lowercase of the trimmed scheme substring of the trimmed value. -/
def overrideScheme (value : String) : String :=
  toLowerStr (trimSpace (transportScheme (trimSpace value)))

/-- `normalizeTransportScheme`: trim, reject empty, extract the URI
scheme, lowercase it, and require membership in the closed scheme set. -/
def normalizeTransportScheme (value : String) : Except String String :=
  if trimSpace value = "" then
    Except.error ("invalid transport override \"" ++ value ++ "\"")
  else if supportedTransportSchemes.contains (overrideScheme value) then
    Except.ok (overrideScheme value)
  else
    Except.error ("invalid transport override \"" ++ value ++ "\"")

/-- `lookupTransportOverride` on a parsed config: flat
`transport.<name>` key first, then the nested shape; each found value is
normalized, and a malformed override is a hard error. -/
def lookupTransportOverrideCfg (cfg : Yaml) (holonName : String) :
    Except String (Option String) :=
  match lookupDotTransportKey cfg holonName with
  | (val, true) =>
    match normalizeTransportScheme val with
    | Except.ok s => Except.ok (some s)
    | Except.error e => Except.error e
  | (_, false) =>
    match lookupNestedTransportKey cfg holonName with
    | (val, true) =>
      match normalizeTransportScheme val with
      | Except.ok s => Except.ok (some s)
      | Except.error e => Except.error e
    | (_, false) => Except.ok none

/-! ## Environment: the filesystem facts consumed by the selector -/

/-- The ambient facts `selectTransport` consumes: the parsed
`.holonconfig` (`none` = file absent), an `os.Stat`-based regular-file
test, `exec.LookPath`, and the result of `readHolonLang` as a function
of `(holonName, binaryPath)` (that function only reads `HOLON.md`
manifests through the external `identity` package, so its outcome is an
input of the model). -/
structure Env where
  config : Option Yaml
  isRegularFile : String → Bool
  lookPath : String → Option String
  readLang : String → String → Except String String

/-- `lookupTransportOverride` including the absent-file case. -/
def lookupTransportOverride (env : Env) (holonName : String) :
    Except String (Option String) :=
  match env.config with
  | none => Except.ok none
  | some cfg => lookupTransportOverrideCfg cfg holonName

/-! ## Holon binary resolver (`resolveHolon`, commands.go) -/

/-- The alias table of `resolveHolon` (each entry maps to itself in the
current source). -/
def holonAliases : List (String × String) :=
  [("who", "who"), ("atlas", "atlas"), ("translate", "translate")]

/-- The binary name for a holon: the alias-table image, or the name
itself. -/
def binNameFor (name : String) : String :=
  match holonAliases.lookup name with
  | some mapped => mapped
  | none => name

/-- The sibling-directory candidate paths probed by `resolveHolon`, in
order. -/
def holonCandidates (name : String) : List String :=
  let binName := binNameFor name
  [ "holons/" ++ name ++ "/" ++ binName
  , "holons/sophia-" ++ name ++ "/" ++ binName
  , "holons/rhizome-" ++ name ++ "/" ++ binName
  , "holons/babel-fish-" ++ name ++ "/" ++ binName ]

/-- `resolveHolon`: first candidate that is a regular file, else
`$PATH` lookup of the binary name, else `holon "<name>" not found`. -/
def resolveHolon (env : Env) (name : String) : Except String String :=
  match (holonCandidates name).find? env.isRegularFile with
  | some path => Except.ok path
  | none =>
    match env.lookPath (binNameFor name) with
    | some p => Except.ok p
    | none => Except.error ("holon \"" ++ name ++ "\" not found")

/-! ## Transport selector (`selectTransport`, transport_chain.go) -/

/-- `selectTransport`: override wins; otherwise a resolvable binary is
required; `lang == "go"` (case-insensitive) yields `mem`; a non-empty
binary path yields `stdio`; otherwise `holon not reachable`. -/
def selectTransport (env : Env) (holonName : String) : Except String String :=
  match lookupTransportOverride env holonName with
  | Except.error e => Except.error e
  | Except.ok (some s) => Except.ok s
  | Except.ok none =>
    match resolveHolon env holonName with
    | Except.error _ => Except.error "holon not reachable"
    | Except.ok binaryPath =>
      if (match env.readLang holonName binaryPath with
          | Except.ok lang => eqFold lang "go"
          | Except.error _ => false) then
        Except.ok "mem"
      else if binaryPath ≠ "" then
        Except.ok "stdio"
      else
        Except.error "holon not reachable"

/-! ## Verb → RPC mapper (`commands.go`)

`mapHolonCommandToRPC` builds payloads with `encoding/json`'s
`json.Marshal(map[string]string{…})`, which emits
`{"<key>":"<escaped value>"}` using Go's JSON string escaping (HTML
escaping on, as `json.Marshal` defaults).  We embed that escaper
character by character. -/

/-- Lower-case hexadecimal digit, as used by Go's JSON encoder. -/
def hexDigit (n : Nat) : Char := "0123456789abcdef".toList.getD n '0'

/-- Go `encoding/json` string escaping of one character (HTML-escaping
variant used by `json.Marshal`): quotes, backslashes, `\n`, `\r`, `\t`
get two-character escapes; other control characters and `<`, `>`, `&`
become `\u00XX`; U+2028 and U+2029 become six-character `\u202X`
escapes; everything else
is emitted verbatim. -/
def escChar (c : Char) : List Char :=
  if c = '"' then ['\\', '"']
  else if c = '\\' then ['\\', '\\']
  else if c = '\n' then ['\\', 'n']
  else if c = '\r' then ['\\', 'r']
  else if c = '\t' then ['\\', 't']
  else if c = '<' ∨ c = '>' ∨ c = '&' then
    ['\\', 'u', '0', '0', hexDigit (c.toNat / 16), hexDigit (c.toNat % 16)]
  else if c.toNat < 32 then
    ['\\', 'u', '0', '0', hexDigit (c.toNat / 16), hexDigit (c.toNat % 16)]
  else if c.toNat = 8232 ∨ c.toNat = 8233 then
    ['\\', 'u', '2', '0', '2', hexDigit (c.toNat % 16)]
  else [c]

/-- Go JSON string literal: `"` + escaped characters + `"`. -/
def goQuote (s : String) : String :=
  "\"" ++ String.mk (s.data.map escChar).flatten ++ "\""

/-- The JSON text `{}` (empty object), the default payload. -/
def emptyJSONObject : String := lbraceS ++ rbraceS

/-- `json.Marshal(map[string]string{key: val})` for a one-entry map:
`{"key":"val"}` with both strings escaped. -/
def goMarshalField (key val : String) : String :=
  lbraceS ++ goQuote key ++ ":" ++ goQuote val ++ rbraceS

/-- `looksLikeJSON`: the trimmed value starts with `{` or `[`. -/
def looksLikeJSON (value : String) : Bool :=
  let trimmed := trimSpace value
  hasPre trimmed lbraceS || hasPre trimmed "["

/-- `mapCommandNameToMethod`: the four mapped verbs (matched
case-insensitively on the trimmed token), any other command returned as
passed. -/
def mapCommandNameToMethod (command : String) : String :=
  let key := toLowerStr (trimSpace command)
  if key = "new" then "CreateIdentity"
  else if key = "list" then "ListIdentities"
  else if key = "show" then "ShowIdentity"
  else if key = "pin" then "PinVersion"
  else command

/-- The `switch strings.ToLower(command)` of `mapHolonCommandToRPC`
(reached only when no JSON-looking first argument short-circuited). -/
def mapVerbPayload (command method : String) (rest : List String) :
    Except String (String × String) :=
  let key := toLowerStr command
  if key = "list" then
    match rest with
    | a :: _ => Except.ok (method, goMarshalField "rootDir" a)
    | [] => Except.ok (method, emptyJSONObject)
  else if key = "show" then
    match rest with
    | a :: _ => Except.ok (method, goMarshalField "uuid" a)
    | [] => Except.error "show requires <uuid>"
  else if key = "pin" then
    match rest with
    | a :: _ => Except.ok (method, goMarshalField "uuid" a)
    | [] => Except.error "pin requires <uuid>"
  else
    Except.ok (method, emptyJSONObject)

/-- `mapHolonCommandToRPC` on `args = arg0 :: rest` (the Go function
indexes `args[0]`; its callers guarantee a non-empty slice): trim the
command, map it to a method name, pass a JSON-looking next argument
through verbatim, otherwise build the payload per verb. -/
def mapHolonCommandToRPC (arg0 : String) (rest : List String) :
    Except String (String × String) :=
  let command := trimSpace arg0
  let method := mapCommandNameToMethod command
  match rest with
  | a :: _ =>
    if looksLikeJSON a then Except.ok (method, a)
    else mapVerbPayload command method rest
  | [] => mapVerbPayload command method rest

/-! ## In-memory composition registry (`mem_compose.go`) -/

/-- The keys of `memComposeRegistry` (all three map to the
`sophia-who` composer). -/
def memComposeRegistryKeys : List String := ["who", "sophia", "sophia-who"]

/-- `resolveMemComposer`: trimmed lower-cased name must be a registry
key; a miss is the composer-miss error (quoting the original name). -/
def resolveMemComposer (holonName : String) : Except String Unit :=
  let key := toLowerStr (trimSpace holonName)
  if memComposeRegistryKeys.contains key then Except.ok ()
  else
    Except.error ("mem composition not available for holon \"" ++ holonName ++ "\"")

/-! ## Holon dispatch routing (`cmdHolon`, commands.go)

We embed `cmdHolon` up to the point where it hands off to an actual RPC
(in-process call, stdio subprocess, or ephemeral TCP).  Everything
before that hand-off — argument checking, verb mapping, transport
selection, composer lookup, binary resolution, and the error messages
printed to stderr (`fmt.Fprintf(os.Stderr, "op: %v\n", err)`; `%q` is
modelled as quote-wrapping, faithful for names without
escape-worthy characters) — is deterministic and appears below. -/

/-- Where `cmdHolon` ends up before performing any RPC. `fail` means
exit code 1 with the given single line written to stderr. -/
inductive HolonOutcome where
  | fail (stderrLine : String)
  | memRPC (holon method payload : String)
  | stdioRPC (binary method payload : String)
  | tcpRPC (holon method payload : String)
  deriving Repr, DecidableEq

/-- Exit code determined by the pre-RPC routing: `fail` exits 1; for
the RPC outcomes the code depends on the call itself. -/
def HolonOutcome.exitCode : HolonOutcome → Option Nat
  | .fail _ => some 1
  | _ => none

/-- Stderr lines written by the pre-RPC routing. -/
def HolonOutcome.stderrLines : HolonOutcome → List String
  | .fail msg => [msg]
  | _ => []

/-- `cmdHolon`: reject an empty command list, run the verb mapper, ask
`selectTransport` for a scheme, and route — `mem` requires a registered
composer (`callViaMem` fails with the composer-miss error otherwise,
printed as `op: <err>`); `stdio` re-resolves the binary (failure prints
`op: unknown holon "<name>"`); any other scheme goes to the ephemeral
TCP path `cmdGRPCTCP("grpc://"+holon, [method, payload])`. -/
def cmdHolonResult (env : Env) (holon : String) (args : List String) :
    HolonOutcome :=
  match args with
  | [] => .fail ("op: missing command for holon \"" ++ holon ++ "\"")
  | arg0 :: rest =>
    match mapHolonCommandToRPC arg0 rest with
    | Except.error e => .fail ("op: " ++ e)
    | Except.ok (method, inputJSON) =>
      match selectTransport env holon with
      | Except.error e => .fail ("op: " ++ e)
      | Except.ok scheme =>
        if scheme = "mem" then
          match resolveMemComposer holon with
          | Except.error e => .fail ("op: " ++ e)
          | Except.ok _ => .memRPC holon method inputJSON
        else if scheme = "stdio" then
          match resolveHolon env holon with
          | Except.error _ => .fail ("op: unknown holon \"" ++ holon ++ "\"")
          | Except.ok binary => .stdioRPC binary method inputJSON
        else
          .tcpRPC holon method inputJSON

/-! ## Single-use dialers (`client.go`: `DialStdio`, `DialWebSocket`)

`DialStdio` guards its dialer with a `sync.Once` whose body hands out
the pipe connection; `DialWebSocket` uses a `dialed` boolean.  Both are
sequential state machines over one bit of state ("has the connection
been handed out?"); gRPC calls the dialer one attempt at a time. -/

/-- The outcome of one dialer invocation: the (unique) underlying
connection, or an error message. -/
inductive DialAttempt where
  | conn
  | err (msg : String)
  deriving Repr, DecidableEq

/-- One step of `DialStdio`'s dialer: state is "once has fired". -/
def stdioDialStep : Bool → DialAttempt × Bool
  | false => (DialAttempt.conn, true)
  | true => (DialAttempt.err "stdio pipe already consumed", true)

/-- One step of `DialWebSocket`'s dialer: state is the `dialed` flag. -/
def wsDialStep : Bool → DialAttempt × Bool
  | false => (DialAttempt.conn, true)
  | true => (DialAttempt.err "ws connection already consumed", true)

/-- Dialer state after `n` sequential dial attempts (initially the
connection is unconsumed). -/
def dialStateAfter (step : Bool → DialAttempt × Bool) : Nat → Bool
  | 0 => false
  | n + 1 => (step (dialStateAfter step n)).2

/-- Result of the `(n+1)`-st sequential dial attempt (0-indexed). -/
def nthDialResult (step : Bool → DialAttempt × Bool) (n : Nat) : DialAttempt :=
  (step (dialStateAfter step n)).1

/-! ## Reflection dependency stitcher

`resolveService` (client.go) and `resolveReflectedService`
(stdio_compose.go) contain the identical descriptor-stitching loop; the
embedding below is shared.  A `FileDescriptorProto` is modelled by its
`name`, its `dependency` list, and an opaque `content` standing for all
remaining descriptor fields (`proto.Clone` copies every field;
rewriting `Name` leaves `content` and `dependency` intact).  The
reflection server is an oracle `String → Except String (List
FileDescriptorProto)` answering `FileByFilename` requests (an `error`
covers transport errors and missing-descriptor responses). -/

structure FileDescriptorProto where
  name : String
  dependency : List String
  content : String
  deriving Repr, DecidableEq

/-- The per-session descriptor registry: `filesByName` (association
list, first binding wins — no duplicate keys are ever inserted) and the
traversal-order `queue`. -/
structure StitchState where
  files : List (String × FileDescriptorProto)
  queue : List String
  deriving Repr, DecidableEq

/-- Oracle for `resolveFileByName` / `resolveReflectedFileByName`. -/
abbrev ReflectionServer := String → Except String (List FileDescriptorProto)

/-- The `FileByFilename` fetch with the `protos/`-prefix retry: on a
failed lookup of a name not already starting with `protos/`, retry with
the prefix prepended. -/
def resolveDepFiles (server : ReflectionServer) (dep : String) :
    Except String (List FileDescriptorProto) :=
  match server dep with
  | Except.ok files => Except.ok files
  | Except.error e =>
    if hasPre dep "protos/" then Except.error e
    else server ("protos/" ++ dep)

/-- `aliasSourceName`: the first returned file whose non-empty name
differs from `dep` but ends with `dep` (empty when there is none). -/
def aliasSourceNameOf (dep : String) (depFiles : List FileDescriptorProto) :
    String :=
  match depFiles.find?
      (fun f => !(f.name == "") && !(f.name == dep) && hasSuf f.name dep) with
  | some f => f.name
  | none => ""

/-- One iteration of the registration loop: skip empty names, record
whether `dep` itself was seen, skip the alias source name ("keep only
the aliased name"), skip names already present, otherwise register and
enqueue. -/
def registerStep (dep asn : String) (acc : StitchState × Bool)
    (f : FileDescriptorProto) : StitchState × Bool :=
  if f.name = "" then acc
  else
    let r := acc.2 || (f.name == dep)
    if asn ≠ "" ∧ f.name = asn then (acc.1, r)
    else if (acc.1.files.lookup f.name).isSome then (acc.1, r)
    else
      ({ files := acc.1.files ++ [(f.name, f)]
       , queue := acc.1.queue ++ [f.name] }, r)

/-- The registration loop over one `depFiles` response.  Returns the
updated state and the `resolvedDepName` flag. -/
def registerLoop (dep asn : String) (depFiles : List FileDescriptorProto)
    (st : StitchState) : StitchState × Bool :=
  depFiles.foldl (registerStep dep asn) (st, false)

/-- Process one unresolved dependency `dep` given the server's
response: run the registration loop, then, when `dep` itself never
appeared but an alias source did, register a clone of the alias source
renamed to `dep`. -/
def registerDep (dep : String) (depFiles : List FileDescriptorProto)
    (st : StitchState) : StitchState :=
  let asn := aliasSourceNameOf dep depFiles
  let (st1, resolvedDepName) := registerLoop dep asn depFiles st
  if resolvedDepName = false ∧ asn ≠ "" then
    match depFiles.find? (fun f => f.name == asn) with
    | some f =>
      { files := st1.files ++ [(dep, { f with name := dep })]
      , queue := st1.queue ++ [dep] }
    | none => st1
  else st1

/-- Walk the `dependency` list of one file: already-present names are
skipped, the rest are fetched (with the `protos/` retry) and
registered; a failed fetch aborts the whole resolution. -/
def processDeps (server : ReflectionServer) (deps : List String)
    (st : StitchState) : Except String StitchState :=
  deps.foldlM
    (fun st dep =>
      if (st.files.lookup dep).isSome then pure st
      else
        match resolveDepFiles server dep with
        | Except.error e => Except.error e
        | Except.ok depFiles => pure (registerDep dep depFiles st))
    st

/-- The outer worklist loop (`for i := 0; i < len(queue); i++`).  The
Go loop has no fuel; against an adversarial server it need not
terminate, so the embedding bounds the number of processed queue
entries by `fuel` (call sites supply enough fuel for their input). -/
def stitchLoop (server : ReflectionServer) :
    Nat → Nat → StitchState → Except String StitchState
  | 0, _, _ => Except.error "out of fuel"
  | fuel + 1, i, st =>
    if h : i < st.queue.length then
      match st.files.lookup (st.queue.get ⟨i, h⟩) with
      | none => Except.error "internal: queued name unregistered"
      | some fd =>
        match processDeps server fd.dependency st with
        | Except.error e => Except.error e
        | Except.ok st2 => stitchLoop server fuel (i + 1) st2
    else Except.ok st

/-- Seed the registry from the `FileContainingSymbol` response: skip
empty and duplicate names, register the rest in order. -/
def seedFiles (initial : List FileDescriptorProto) : StitchState :=
  initial.foldl
    (fun st fd =>
      if fd.name = "" then st
      else if (st.files.lookup fd.name).isSome then st
      else { files := st.files ++ [(fd.name, fd)]
           , queue := st.queue ++ [fd.name] })
    { files := [], queue := [] }

/-- The full stitching pass of `resolveService` /
`resolveReflectedService`: seed from the initial response, run the
worklist loop to its fixed point, and emit the file-descriptor set in
traversal order (`fds.File` is built by walking `queue` through
`filesByName`). -/
def resolveServiceFiles (server : ReflectionServer)
    (initial : List FileDescriptorProto) (fuel : Nat) :
    Except String (List FileDescriptorProto) :=
  match stitchLoop server fuel 0 (seedFiles initial) with
  | Except.error e => Except.error e
  | Except.ok st => Except.ok (st.queue.filterMap (fun n => st.files.lookup n))

/-! ## JSON validity

A reference checker for RFC 8259 JSON texts, used to state the
"payload is valid JSON" parts of the spec.  `stringBody` parses the
remainder of a string literal (after the opening quote); `parseValue`,
`parseMembers` and `parseElements` share a fuel bound on nesting (each
nesting level consumes at least one input character, so
`length + 1` fuel always suffices). -/

/-- JSON insignificant whitespace. -/
def jsonWs (c : Char) : Bool :=
  c == ' ' || c == '\t' || c == '\n' || c == '\r'

/-- Skip JSON whitespace. -/
def skipWs : List Char → List Char
  | [] => []
  | c :: rest => if jsonWs c then skipWs rest else c :: rest

/-- Hexadecimal digit test. -/
def isHexDigit (c : Char) : Bool :=
  ('0' ≤ c && c ≤ '9') || ('a' ≤ c && c ≤ 'f') || ('A' ≤ c && c ≤ 'F')

/-- The single-character JSON escapes. -/
def escSimple (c : Char) : Bool :=
  c == '"' || c == '\\' || c == '/' || c == 'b' || c == 'f' ||
  c == 'n' || c == 'r' || c == 't'

/-- Parse the body of a JSON string literal (the opening `"` already
consumed); returns the input remaining after the closing `"`. -/
def stringBody : List Char → Option (List Char)
  | [] => none
  | c :: rest =>
    if c = '"' then some rest
    else if c = '\\' then
      match rest with
      | [] => none
      | e :: rest2 =>
        if escSimple e then stringBody rest2
        else if e = 'u' then
          match rest2 with
          | h1 :: h2 :: h3 :: h4 :: rest3 =>
            if isHexDigit h1 && isHexDigit h2 && isHexDigit h3 && isHexDigit h4
            then stringBody rest3 else none
          | _ => none
        else none
    else if c.toNat < 32 then none
    else stringBody rest

/-- Consume the exact characters of `lit`. -/
def stripLit : List Char → List Char → Option (List Char)
  | [], cs => some cs
  | _ :: _, [] => none
  | p :: ps, c :: cs => if c = p then stripLit ps cs else none

/-- Decimal digit test. -/
def isDigitCh (c : Char) : Bool := '0' ≤ c && c ≤ '9'

/-- Consume a run of decimal digits. -/
def dropDigits : List Char → List Char
  | c :: rest => if isDigitCh c then dropDigits rest else c :: rest
  | [] => []

/-- Parse a JSON number (grammar `-?int frac? exp?`). -/
def parseNumber (cs : List Char) : Option (List Char) :=
  let cs1 := match cs with
    | c :: rest => if c = '-' then rest else cs
    | [] => cs
  match cs1 with
  | c :: rest =>
    if c = '0' then
      let afterInt := rest
      let afterFrac := match afterInt with
        | d :: ds =>
          if d = '.' then
            match ds with
            | e :: _ => if isDigitCh e then some (dropDigits ds) else none
            | [] => none
          else some afterInt
        | [] => some afterInt
      match afterFrac with
      | none => none
      | some cs2 =>
        match cs2 with
        | e :: es =>
          if e = 'e' ∨ e = 'E' then
            let es2 := match es with
              | s :: ss => if s = '+' ∨ s = '-' then ss else es
              | [] => es
            match es2 with
            | d :: _ => if isDigitCh d then some (dropDigits es2) else none
            | [] => none
          else some cs2
        | [] => some cs2
    else if isDigitCh c then
      let afterInt := dropDigits rest
      let afterFrac := match afterInt with
        | d :: ds =>
          if d = '.' then
            match ds with
            | e :: _ => if isDigitCh e then some (dropDigits ds) else none
            | [] => none
          else some afterInt
        | [] => some afterInt
      match afterFrac with
      | none => none
      | some cs2 =>
        match cs2 with
        | e :: es =>
          if e = 'e' ∨ e = 'E' then
            let es2 := match es with
              | s :: ss => if s = '+' ∨ s = '-' then ss else es
              | [] => es
            match es2 with
            | d :: _ => if isDigitCh d then some (dropDigits es2) else none
            | [] => none
          else some cs2
        | [] => some cs2
    else none
  | [] => none

mutual

/-- Parse one JSON value (leading whitespace allowed). -/
def parseValue : Nat → List Char → Option (List Char)
  | 0, _ => none
  | fuel + 1, cs =>
    match skipWs cs with
    | [] => none
    | c :: rest =>
      if c = '"' then stringBody rest
      else if c = lbrace then
        match skipWs rest with
        | [] => none
        | d :: rest2 =>
          if d = rbrace then some rest2
          else parseMembers fuel (d :: rest2)
      else if c = '[' then
        match skipWs rest with
        | [] => none
        | d :: rest2 =>
          if d = ']' then some rest2
          else parseElements fuel (d :: rest2)
      else if c = 't' then stripLit "rue".data rest
      else if c = 'f' then stripLit "alse".data rest
      else if c = 'n' then stripLit "ull".data rest
      else parseNumber (c :: rest)

/-- Parse the members of a non-empty JSON object, up to and including
the closing brace. -/
def parseMembers : Nat → List Char → Option (List Char)
  | 0, _ => none
  | fuel + 1, cs =>
    match skipWs cs with
    | [] => none
    | c :: rest =>
      if c = '"' then
        match stringBody rest with
        | none => none
        | some rest2 =>
          match skipWs rest2 with
          | [] => none
          | d :: rest3 =>
            if d = ':' then
              match parseValue fuel rest3 with
              | none => none
              | some rest4 =>
                match skipWs rest4 with
                | [] => none
                | e :: rest5 =>
                  if e = ',' then parseMembers fuel rest5
                  else if e = rbrace then some rest5
                  else none
            else none
      else none

/-- Parse the elements of a non-empty JSON array, up to and including
the closing bracket. -/
def parseElements : Nat → List Char → Option (List Char)
  | 0, _ => none
  | fuel + 1, cs =>
    match parseValue fuel cs with
    | none => none
    | some rest =>
      match skipWs rest with
      | [] => none
      | e :: rest2 =>
        if e = ',' then parseElements fuel rest2
        else if e = ']' then some rest2
        else none

end

/-- Is `s` a valid JSON text?  (Parse one value with ample fuel and
require only whitespace to remain.) -/
def jsonValid (s : String) : Bool :=
  match parseValue (s.length + 1) s.data with
  | some rest => (skipWs rest).isEmpty
  | none => false

/-! ## Claim-specific inputs and derived notions -/

/-- The payload `mapHolonCommandToRPC` produces for an unmapped verb:
the JSON-looking next argument verbatim, else `{}`. -/
def defaultPayloadFor (rest : List String) : String :=
  match rest with
  | a :: _ => if looksLikeJSON a then a else emptyJSONObject
  | [] => emptyJSONObject

/-- The escaped character stream of a Go JSON string body. -/
def escBodyChars (l : List Char) : List Char := (l.map escChar).flatten

/-- Environment for the composer-miss scenario: no `.holonconfig`, a
regular file at `holons/alpha/alpha`, a `HOLON.md` declaring
`lang: go`, nothing on `$PATH`. -/
def envC2 : Env :=
  { config := none
  , isRegularFile := fun p => p == "holons/alpha/alpha"
  , lookPath := fun _ => none
  , readLang := fun _ _ => Except.ok "go" }

/-- Environment for the unknown-holon scenario: empty working tree, no
config, nothing on `$PATH`, no manifests. -/
def envC9 : Env :=
  { config := none
  , isRegularFile := fun _ => false
  , lookPath := fun _ => none
  , readLang := fun _ _ => Except.error "holon metadata not found" }

/-- A reflection server that answers `FileByFilename("foo.proto")` with
a single file registered under the path-prefixed name
`protos/foo.proto` (the aliasing quirk of §4.E), and fails every other
filename lookup. -/
def c1Server : ReflectionServer := fun name =>
  if name = "foo.proto" then
    Except.ok [{ name := "protos/foo.proto", dependency := [], content := "foo-content" }]
  else Except.error ("no file descriptor response for " ++ name)

/-- Initial `FileContainingSymbol` response: one file importing
`foo.proto`. -/
def c1Initial : List FileDescriptorProto :=
  [{ name := "main.proto", dependency := ["foo.proto"], content := "main-content" }]

/-- The compiled descriptor set the stitcher produces for the
`c1Server` session. -/
def c1Expected : List FileDescriptorProto :=
  [ { name := "main.proto", dependency := ["foo.proto"], content := "main-content" }
  , { name := "foo.proto", dependency := [], content := "foo-content" } ]

/-- Witness environment for override precedence: nested-shape config
mapping `atlas` to a TCP URI, with a binary present and a manifest
declaring `lang: go` (both must be ignored). -/
def envC3W : Env :=
  { config := some [("transport", YamlVal.map [("atlas", YamlVal.str "tcp://127.0.0.1:9090")])]
  , isRegularFile := fun p => p == "holons/atlas/atlas"
  , lookPath := fun _ => none
  , readLang := fun _ _ => Except.ok "go" }

/-- Witness environment for the language rule: `holons/beta/beta`
exists and the manifest declares `lang: rust`. -/
def envC4W : Env :=
  { config := none
  , isRegularFile := fun p => p == "holons/beta/beta"
  , lookPath := fun _ => none
  , readLang := fun _ _ => Except.ok "rust" }

/-- Witness environment for unreachability: nothing anywhere. -/
def envC5W : Env :=
  { config := none
  , isRegularFile := fun _ => false
  , lookPath := fun _ => none
  , readLang := fun _ _ => Except.error "holon metadata not found" }

/-- Does the list not start with whitespace? -/
def noLeadWsB : List Char → Bool
  | [] => true
  | c :: _ => !goSpace c

/-- Decidable equality for `Except`, used to evaluate the model on
concrete inputs. -/
instance {ε α : Type} [DecidableEq ε] [DecidableEq α] :
    DecidableEq (Except ε α) := fun a b =>
  match a, b with
  | Except.ok x, Except.ok y =>
    if h : x = y then Decidable.isTrue (by rw [h])
    else Decidable.isFalse (by intro hh; cases hh; exact h rfl)
  | Except.ok _, Except.error _ => Decidable.isFalse (by intro hh; cases hh)
  | Except.error _, Except.ok _ => Decidable.isFalse (by intro hh; cases hh)
  | Except.error x, Except.error y =>
    if h : x = y then Decidable.isTrue (by rw [h])
    else Decidable.isFalse (by intro hh; cases hh; exact h rfl)

/-! # Theorems

## Supporting lemmas on trimming -/

theorem dropLeadingWs_noLead (l : List Char) :
    noLeadWsB (dropLeadingWs l) = true := by
  induction l with
  | nil => rfl
  | cons c rest ih =>
    simp only [dropLeadingWs]
    by_cases h : goSpace c = true
    · simpa [h] using ih
    · simp [noLeadWsB, h]

theorem dropLeadingWs_of_noLead (l : List Char) (h : noLeadWsB l = true) :
    dropLeadingWs l = l := by
  cases l with
  | nil => rfl
  | cons c rest =>
    simp only [noLeadWsB, Bool.not_eq_true'] at h
    simp [dropLeadingWs, h]

theorem noLeadWsB_append (l : List Char) (x : Char) (h : l ≠ []) :
    noLeadWsB (l ++ [x]) = noLeadWsB l := by
  cases l with
  | nil => exact absurd rfl h
  | cons c rest => rfl

theorem dropLeadingWs_rev_noLead (u : List Char)
    (h : noLeadWsB u.reverse = true) :
    noLeadWsB (dropLeadingWs u).reverse = true := by
  induction u with
  | nil => simpa using h
  | cons c rest ih =>
    simp only [dropLeadingWs]
    by_cases hc : goSpace c = true
    · rcases Decidable.em (rest = []) with hr | hr
      · subst hr; simp [hc, dropLeadingWs, noLeadWsB]
      · have hrev : noLeadWsB (rest.reverse ++ [c]) = true := by
          simpa using h
        rw [noLeadWsB_append rest.reverse c
          (by simpa [List.reverse_eq_nil_iff] using hr)] at hrev
        simpa [hc] using ih hrev
    · simpa [hc] using h

theorem trimChars_idem (l : List Char) :
    trimChars (trimChars l) = trimChars l := by
  unfold trimChars
  have h1 : noLeadWsB (dropLeadingWs ((dropLeadingWs l.reverse).reverse)) = true :=
    dropLeadingWs_noLead _
  have h2 : noLeadWsB ((dropLeadingWs l.reverse).reverse).reverse = true := by
    rw [List.reverse_reverse]; exact dropLeadingWs_noLead _
  have h3 := dropLeadingWs_rev_noLead ((dropLeadingWs l.reverse).reverse) h2
  rw [dropLeadingWs_of_noLead _ h3, List.reverse_reverse,
    dropLeadingWs_of_noLead _ h1]

theorem trimSpace_idem (s : String) :
    trimSpace (trimSpace s) = trimSpace s := by
  show String.mk (trimChars (trimChars s.data)) = String.mk (trimChars s.data)
  rw [trimChars_idem]

/-! ## C3 — override precedence -/

/-- C3: whenever `.holonconfig` holds an override for the holon name —
through the flat `transport.<name>` key or, that key being absent, the
nested `transport: { <name>: … }` shape (keys matched
case-insensitively) — whose URI scheme normalizes into the closed set
`{mem, stdio, tcp, unix, ws, wss}`, `selectTransport` returns that
scheme, for every filesystem state and every manifest outcome. -/
theorem c3_override_precedence (cfg : Yaml) (name v : String)
    (isReg : String → Bool) (lp : String → Option String)
    (rl : String → String → Except String String)
    (hfound : lookupDotTransportKey cfg name = (v, true) ∨
      ((lookupDotTransportKey cfg name).2 = false ∧
        lookupNestedTransportKey cfg name = (v, true)))
    (hscheme : supportedTransportSchemes.contains (overrideScheme v) = true) :
    selectTransport ⟨some cfg, isReg, lp, rl⟩ name =
      Except.ok (overrideScheme v) := by
  have hne : ¬ trimSpace v = "" := by
    intro h0
    have h1 : overrideScheme v = "" := by
      rw [overrideScheme, h0]; rfl
    rw [h1] at hscheme
    exact absurd hscheme (by decide)
  have hnorm : normalizeTransportScheme v = Except.ok (overrideScheme v) := by
    unfold normalizeTransportScheme
    rw [if_neg hne, if_pos hscheme]
  have hcfg : lookupTransportOverrideCfg cfg name =
      Except.ok (some (overrideScheme v)) := by
    rcases hfound with hdot | ⟨hmiss, hnest⟩
    · simp only [lookupTransportOverrideCfg, hdot, hnorm]
    · rcases hw : lookupDotTransportKey cfg name with ⟨a, b⟩
      rw [hw] at hmiss
      simp only at hmiss
      subst hmiss
      simp only [lookupTransportOverrideCfg, hw, hnest, hnorm]
  simp only [selectTransport, lookupTransportOverride, hcfg]

/-- C3 witness: nested-shape override `transport: atlas: tcp://…` in
the presence of a resolvable binary and a `lang: go` manifest still
yields `tcp`. -/
theorem c3_witness :
    (lookupDotTransportKey
        [("transport", YamlVal.map [("atlas", YamlVal.str "tcp://127.0.0.1:9090")])]
        "atlas").2 = false ∧
    lookupNestedTransportKey
        [("transport", YamlVal.map [("atlas", YamlVal.str "tcp://127.0.0.1:9090")])]
        "atlas" = ("tcp://127.0.0.1:9090", true) ∧
    selectTransport envC3W "atlas" = Except.ok "tcp" :=
  ⟨by decide, by decide, by
    have h := c3_override_precedence
      [("transport", YamlVal.map [("atlas", YamlVal.str "tcp://127.0.0.1:9090")])]
      "atlas" "tcp://127.0.0.1:9090"
      (fun p => p == "holons/atlas/atlas") (fun _ => none)
      (fun _ _ => Except.ok "go")
      (Or.inr ⟨by decide, by decide⟩) (by decide)
    simpa [envC3W] using h⟩

/-! ## C4 — language→mem rule and binary→stdio fallback -/

/-- C4: with no override and a resolvable (non-empty) binary path,
`selectTransport` returns `mem` exactly when the manifest lookup
succeeds with a lang case-insensitively equal to `"go"`, and `stdio`
when the lang differs or the manifest lookup fails. -/
theorem c4_lang_selects_mem (env : Env) (name p : String)
    (hov : lookupTransportOverride env name = Except.ok none)
    (hbin : resolveHolon env name = Except.ok p)
    (hne : p ≠ "") :
    selectTransport env name =
      Except.ok (match env.readLang name p with
        | Except.ok lang => if eqFold lang "go" then "mem" else "stdio"
        | Except.error _ => "stdio") := by
  simp only [selectTransport, hov, hbin]
  cases hr : env.readLang name p with
  | ok lang =>
    by_cases hg : eqFold lang "go" = true
    · simp [hg]
    · simp [hg, hne]
  | error e => simp [hne]

/-- C4 witness: `holons/beta/beta` present, manifest `lang: rust` →
`stdio`. -/
theorem c4_witness :
    lookupTransportOverride envC4W "beta" = Except.ok none ∧
    resolveHolon envC4W "beta" = Except.ok "holons/beta/beta" ∧
    selectTransport envC4W "beta" = Except.ok "stdio" :=
  ⟨by decide, by decide, by
    have h := c4_lang_selects_mem envC4W "beta" "holons/beta/beta"
      (by decide) (by decide) (by decide)
    simpa [envC4W] using h⟩

/-- Shared: no override and an unresolvable binary make `selectTransport`
fail with `"holon not reachable"`. -/
theorem selectUnreachableAux (env : Env) (name : String)
    (hov : lookupTransportOverride env name = Except.ok none)
    (hcand : ∀ c ∈ holonCandidates name, env.isRegularFile c = false)
    (hpath : env.lookPath (binNameFor name) = none) :
    selectTransport env name = Except.error "holon not reachable" := by
  have hfind : (holonCandidates name).find? env.isRegularFile = none := by
    rw [List.find?_eq_none]
    intro x hx
    simp [hcand x hx]
  have hres : resolveHolon env name =
      Except.error ("holon \"" ++ name ++ "\" not found") := by
    simp only [resolveHolon, hfind, hpath]
  simp only [selectTransport, hov, hres]

/-! ## C5 — unreachable holon -/

/-- C5: with no override, no candidate path under `holons/` being a
regular file, and the binary name absent from the executable search
path, `selectTransport` fails with exactly `"holon not reachable"`. -/
theorem c5_unreachable (env : Env) (name : String)
    (hov : lookupTransportOverride env name = Except.ok none)
    (hcand : ∀ c ∈ holonCandidates name, env.isRegularFile c = false)
    (hpath : env.lookPath (binNameFor name) = none) :
    selectTransport env name = Except.error "holon not reachable" :=
  selectUnreachableAux env name hov hcand hpath

/-- C5 witness: the empty environment makes `missing` unreachable. -/
theorem c5_witness :
    lookupTransportOverride envC5W "missing" = Except.ok none ∧
    (∀ c ∈ holonCandidates "missing", envC5W.isRegularFile c = false) ∧
    envC5W.lookPath (binNameFor "missing") = none ∧
    selectTransport envC5W "missing" = Except.error "holon not reachable" :=
  ⟨by decide, by intro c _; rfl, by decide,
    c5_unreachable envC5W "missing" (by decide) (by intro c _; rfl) (by decide)⟩

/-! ## C6 — single-use dialers -/

/-- C2/C6 helper: both dialers flip their state to consumed on every
invocation. -/
theorem dialStateAfter_succ_stdio (k : Nat) :
    dialStateAfter stdioDialStep (k + 1) = true := by
  show (stdioDialStep (dialStateAfter stdioDialStep k)).2 = true
  cases dialStateAfter stdioDialStep k <;> rfl

theorem dialStateAfter_succ_ws (k : Nat) :
    dialStateAfter wsDialStep (k + 1) = true := by
  show (wsDialStep (dialStateAfter wsDialStep k)).2 = true
  cases dialStateAfter wsDialStep k <;> rfl

/-- C6: for the stdio and WebSocket single-use dialers, the first dial
within an invocation yields the connection; every later dial fails with
an error message containing `"already consumed"`. -/
theorem c6_single_use :
    nthDialResult stdioDialStep 0 = DialAttempt.conn ∧
    nthDialResult wsDialStep 0 = DialAttempt.conn ∧
    (∀ n, 1 ≤ n →
      nthDialResult stdioDialStep n =
          DialAttempt.err "stdio pipe already consumed" ∧
        containsSub "stdio pipe already consumed" "already consumed" = true) ∧
    (∀ n, 1 ≤ n →
      nthDialResult wsDialStep n =
          DialAttempt.err "ws connection already consumed" ∧
        containsSub "ws connection already consumed" "already consumed" = true) := by
  refine ⟨rfl, rfl, ?_, ?_⟩
  · intro n hn
    cases n with
    | zero => exact absurd hn (by decide)
    | succ k =>
      refine ⟨?_, by decide⟩
      show (stdioDialStep (dialStateAfter stdioDialStep (k + 1))).1 = _
      rw [dialStateAfter_succ_stdio]
      rfl
  · intro n hn
    cases n with
    | zero => exact absurd hn (by decide)
    | succ k =>
      refine ⟨?_, by decide⟩
      show (wsDialStep (dialStateAfter wsDialStep (k + 1))).1 = _
      rw [dialStateAfter_succ_ws]
      rfl

/-- C6 witness: applied at the second dial (`n = 1`) of each
transport. -/
theorem c6_witness :
    (1 ≤ 1) ∧
    (nthDialResult stdioDialStep 1 =
        DialAttempt.err "stdio pipe already consumed" ∧
      containsSub "stdio pipe already consumed" "already consumed" = true) ∧
    (nthDialResult wsDialStep 1 =
        DialAttempt.err "ws connection already consumed" ∧
      containsSub "ws connection already consumed" "already consumed" = true) :=
  ⟨by decide, c6_single_use.2.2.1 1 (by decide), c6_single_use.2.2.2 1 (by decide)⟩

/-! ## C10 — JSON-looking argument passthrough -/

/-- C10: for every verb, a first argument that looks like JSON (trims
to a `{`- or `[`-leading string) is returned unchanged as the payload,
with the mapped method, and the mapper succeeds — the missing-UUID
check of `show`/`pin` is bypassed. -/
theorem c10_json_passthrough (arg0 a : String) (rest : List String)
    (h : looksLikeJSON a = true) :
    mapHolonCommandToRPC arg0 (a :: rest) =
      Except.ok (mapCommandNameToMethod (trimSpace arg0), a) := by
  simp only [mapHolonCommandToRPC, h, if_true]

/-- C10 witness: `show` with a bare `{` argument passes it through and
raises no missing-UUID error. -/
theorem c10_witness :
    looksLikeJSON lbraceS = true ∧
    mapHolonCommandToRPC "show" [lbraceS] =
      Except.ok (mapCommandNameToMethod (trimSpace "show"), lbraceS) :=
  ⟨by decide, c10_json_passthrough "show" lbraceS [] (by decide)⟩

/-! ## C8 — unmapped verb fallthrough -/

/-- C8: a first token whose trimmed, lower-cased form is none of `new`,
`list`, `show`, `pin` is returned (trimmed) as the method name, with
the payload taken from a JSON-looking next argument when present and
`{}` otherwise. -/
theorem c8_method_fallthrough (arg0 : String) (rest : List String)
    (h : toLowerStr (trimSpace arg0) ∉ (["new", "list", "show", "pin"] : List String)) :
    mapHolonCommandToRPC arg0 rest =
      Except.ok (trimSpace arg0, defaultPayloadFor rest) := by
  simp only [List.mem_cons, List.mem_singleton, not_or, List.not_mem_nil] at h
  obtain ⟨h1, h2, h3, h4, -⟩ := h
  have hmeth : mapCommandNameToMethod (trimSpace arg0) = trimSpace arg0 := by
    simp only [mapCommandNameToMethod, trimSpace_idem]
    rw [if_neg h1, if_neg h2, if_neg h3, if_neg h4]
  have hpay : ∀ r, mapVerbPayload (trimSpace arg0)
      (mapCommandNameToMethod (trimSpace arg0)) r =
        Except.ok (trimSpace arg0, emptyJSONObject) := by
    intro r
    simp only [mapVerbPayload, hmeth]
    rw [if_neg h2, if_neg h3, if_neg h4]
  cases rest with
  | nil =>
    simp only [mapHolonCommandToRPC, hpay, defaultPayloadFor]
  | cons a r =>
    by_cases hj : looksLikeJSON a = true
    · simp only [mapHolonCommandToRPC, hj, if_true, hmeth, defaultPayloadFor]
    · simp only [mapHolonCommandToRPC, hj, if_false, Bool.false_eq_true, hpay,
        defaultPayloadFor]

/-- C8 witness: the unmapped token `status` with no further arguments
becomes method `status` with payload `{}`. -/
theorem c8_witness :
    toLowerStr (trimSpace "status") ∉ (["new", "list", "show", "pin"] : List String) ∧
    mapHolonCommandToRPC "status" [] =
      Except.ok (trimSpace "status", defaultPayloadFor []) :=
  ⟨by decide, c8_method_fallthrough "status" [] (by decide)⟩

/-! ## C2 — mem composer miss (corrected) -/

/-- C2 counterexample: for holon `alpha` (binary present, manifest
`lang: go`, not a registry key) the transport selection yields `mem`,
the composer lookup misses, and the dispatch fails with the
composer-miss error instead of falling back to the stdio path. -/
theorem c2_counterexample :
    selectTransport envC2 "alpha" = Except.ok "mem" ∧
    resolveMemComposer "alpha" =
      Except.error "mem composition not available for holon \"alpha\"" ∧
    cmdHolonResult envC2 "alpha" ["list"] =
      HolonOutcome.fail "op: mem composition not available for holon \"alpha\"" := by
  refine ⟨by decide, by decide, by decide⟩

/-- C2 (amended): when the selected scheme is `mem` and the holon name
is not a key of the in-memory composition registry, `cmdHolon` fails
the invocation with exit code 1 and the composer-miss error on stderr;
there is no automatic fallback to stdio. -/
theorem c2_composer_miss_fails (env : Env)
    (holon arg0 method payload : String) (rest : List String)
    (hmap : mapHolonCommandToRPC arg0 rest = Except.ok (method, payload))
    (hsel : selectTransport env holon = Except.ok "mem")
    (hmiss : memComposeRegistryKeys.contains (toLowerStr (trimSpace holon)) = false) :
    cmdHolonResult env holon (arg0 :: rest) =
      HolonOutcome.fail
        ("op: mem composition not available for holon \"" ++ holon ++ "\"") ∧
    (cmdHolonResult env holon (arg0 :: rest)).exitCode = some 1 := by
  have hcomp : resolveMemComposer holon =
      Except.error ("mem composition not available for holon \"" ++ holon ++ "\"") := by
    simp only [resolveMemComposer, hmiss]
    rfl
  have hmain : cmdHolonResult env holon (arg0 :: rest) =
      HolonOutcome.fail
        ("op: mem composition not available for holon \"" ++ holon ++ "\"") := by
    simp only [cmdHolonResult, hmap, hsel, hcomp]
    rfl
  exact ⟨hmain, by rw [hmain]; rfl⟩

/-- C2 witness: the amended theorem applied to the `alpha` scenario. -/
theorem c2_witness :
    mapHolonCommandToRPC "list" [] =
      Except.ok ("ListIdentities", emptyJSONObject) ∧
    selectTransport envC2 "alpha" = Except.ok "mem" ∧
    memComposeRegistryKeys.contains (toLowerStr (trimSpace "alpha")) = false ∧
    (cmdHolonResult envC2 "alpha" ["list"] =
        HolonOutcome.fail "op: mem composition not available for holon \"alpha\"" ∧
      (cmdHolonResult envC2 "alpha" ["list"]).exitCode = some 1) :=
  ⟨by decide, by decide, by decide,
    c2_composer_miss_fails envC2 "alpha" "list" "ListIdentities" emptyJSONObject []
      (by decide) (by decide) (by decide)⟩

/-! ## C9 — unknown-holon error message (corrected) -/

/-- C9 counterexample: dispatching `nonexistent-holon some-command`
against an empty environment exits 1, but the stderr line is
`op: holon not reachable` and does not contain
`unknown holon "nonexistent-holon"`. -/
theorem c9_counterexample :
    cmdHolonResult envC9 "nonexistent-holon" ["some-command"] =
      HolonOutcome.fail "op: holon not reachable" ∧
    (HolonOutcome.fail "op: holon not reachable").exitCode = some 1 ∧
    containsSub "op: holon not reachable"
      "unknown holon \"nonexistent-holon\"" = false := by
  refine ⟨by decide, rfl, by decide⟩

/-- C9 (amended): dispatching a holon command when no override exists
and no binary resolves exits with code 1 and writes exactly
`op: holon not reachable` to the error stream. -/
theorem c9_unknown_holon_message (env : Env)
    (name arg0 method payload : String) (rest : List String)
    (hov : lookupTransportOverride env name = Except.ok none)
    (hcand : ∀ c ∈ holonCandidates name, env.isRegularFile c = false)
    (hpath : env.lookPath (binNameFor name) = none)
    (hmap : mapHolonCommandToRPC arg0 rest = Except.ok (method, payload)) :
    cmdHolonResult env name (arg0 :: rest) =
      HolonOutcome.fail "op: holon not reachable" ∧
    (cmdHolonResult env name (arg0 :: rest)).exitCode = some 1 ∧
    (cmdHolonResult env name (arg0 :: rest)).stderrLines =
      ["op: holon not reachable"] := by
  have hsel := selectUnreachableAux env name hov hcand hpath
  have hmain : cmdHolonResult env name (arg0 :: rest) =
      HolonOutcome.fail "op: holon not reachable" := by
    simp only [cmdHolonResult, hmap, hsel]
    rfl
  exact ⟨hmain, by rw [hmain]; rfl, by rw [hmain]; rfl⟩

/-- C9 witness: the amended theorem applied to the empty
environment. -/
theorem c9_witness :
    lookupTransportOverride envC9 "nonexistent-holon" = Except.ok none ∧
    envC9.lookPath (binNameFor "nonexistent-holon") = none ∧
    (cmdHolonResult envC9 "nonexistent-holon" ["some-command"] =
        HolonOutcome.fail "op: holon not reachable" ∧
      (cmdHolonResult envC9 "nonexistent-holon" ["some-command"]).exitCode =
        some 1 ∧
      (cmdHolonResult envC9 "nonexistent-holon" ["some-command"]).stderrLines =
        ["op: holon not reachable"]) :=
  ⟨by decide, by decide,
    c9_unknown_holon_message envC9 "nonexistent-holon" "some-command"
      "some-command" emptyJSONObject []
      (by decide) (by intro c _; rfl) (by decide) (by decide)⟩

/-! ## C1 — descriptor alias handling (corrected) -/

/-- Lookup over a single-binding extension of an association list. -/
theorem lookup_append_single (l : List (String × FileDescriptorProto))
    (k a : String) (v : FileDescriptorProto) :
    (l ++ [(k, v)]).lookup a =
      (match l.lookup a with
       | some x => some x
       | none => if a == k then some v else none) := by
  induction l with
  | nil =>
    simp only [List.nil_append, List.lookup]
    cases h : a == k
    · simp [beq_eq_false_iff_ne.mp h]
    · simp [beq_iff_eq.mp h]
  | cons p rest ih =>
    rcases p with ⟨pk, pv⟩
    simp only [List.cons_append, List.lookup]
    cases h : a == pk
    · simpa [h] using ih
    · simp [h]

/-- A non-empty alias source name differs from the requested
dependency name. -/
theorem aliasSource_ne_dep (dep : String) (dfs : List FileDescriptorProto)
    (h : aliasSourceNameOf dep dfs ≠ "") :
    aliasSourceNameOf dep dfs ≠ dep := by
  unfold aliasSourceNameOf at h ⊢
  cases hf : dfs.find?
      (fun f => !(f.name == "") && !(f.name == dep) && hasSuf f.name dep) with
  | none => rw [hf] at h; exact absurd rfl h
  | some f =>
    show f.name ≠ dep
    have hp := List.find?_some hf
    simp only [Bool.and_eq_true, Bool.not_eq_true'] at hp
    intro heq
    rw [heq] at hp
    simp at hp

/-- Invariant of the registration loop: with every returned file named
differently from `dep` and a non-empty alias source name, the
`resolvedDepName` flag keeps its initial value, and the bindings of
`dep` and of the alias source name are untouched. -/
theorem registerLoop_inv (dep asn : String) (dfs : List FileDescriptorProto)
    (hnodep : ∀ f ∈ dfs, f.name ≠ dep) (hasn : asn ≠ "") :
    ∀ (st : StitchState) (r : Bool),
      (dfs.foldl (registerStep dep asn) (st, r)).2 = r ∧
      (dfs.foldl (registerStep dep asn) (st, r)).1.files.lookup dep =
        st.files.lookup dep ∧
      (dfs.foldl (registerStep dep asn) (st, r)).1.files.lookup asn =
        st.files.lookup asn := by
  induction dfs with
  | nil => intro st r; exact ⟨rfl, rfl, rfl⟩
  | cons f rest ih =>
    intro st r
    have hfr : f.name ≠ dep := hnodep f (by simp)
    have hrest : ∀ g ∈ rest, g.name ≠ dep := fun g hg => hnodep g (by simp [hg])
    have hbeq : (f.name == dep) = false := by
      simpa using hfr
    have hstep : registerStep dep asn (st, r) f = (st, r) ∨
        (registerStep dep asn (st, r) f =
          ({ files := st.files ++ [(f.name, f)]
           , queue := st.queue ++ [f.name] }, r) ∧ f.name ≠ asn) := by
      unfold registerStep
      by_cases h0 : f.name = ""
      · exact Or.inl (by simp [h0])
      · by_cases h1 : asn ≠ "" ∧ f.name = asn
        · have hbeq2 : (asn == dep) = false := by rw [← h1.2]; exact hbeq
          exact Or.inl (by simp [h0, h1, hbeq, hbeq2])
        · by_cases h2 : (st.files.lookup f.name).isSome
          · exact Or.inl (by simp [h0, h1, h2, hbeq])
          · refine Or.inr ⟨by simp [h0, h1, h2, hbeq], ?_⟩
            intro hfa
            exact h1 ⟨hasn, hfa⟩
    have hfold : List.foldl (registerStep dep asn) (st, r) (f :: rest) =
        List.foldl (registerStep dep asn) (registerStep dep asn (st, r) f) rest :=
      rfl
    rcases hstep with hid | ⟨happ, hne⟩
    · rw [hfold, hid]; exact ih hrest st r
    · rw [hfold, happ]
      obtain ⟨i1, i2, i3⟩ := ih hrest
        { files := st.files ++ [(f.name, f)], queue := st.queue ++ [f.name] } r
      refine ⟨i1, ?_, ?_⟩
      · rw [i2, lookup_append_single]
        cases hl : st.files.lookup dep
        · simp [show (dep == f.name) = false by simpa using (Ne.symm hfr)]
        · simp
      · rw [i3, lookup_append_single]
        cases hl : st.files.lookup asn
        · simp [show (asn == f.name) = false by simpa using (Ne.symm hne)]
        · simp

/-- C1 counterexample: a session whose `FileByFilename("foo.proto")`
lookup returns a file named `protos/foo.proto` compiles a descriptor
set containing only the aliased `foo.proto` entry — the prefixed
`protos/foo.proto` entry is absent, contradicting "the compiled set
contains both". -/
theorem c1_counterexample :
    resolveServiceFiles c1Server c1Initial 8 = Except.ok c1Expected ∧
    c1Expected.map FileDescriptorProto.name = ["main.proto", "foo.proto"] ∧
    ¬ ("protos/foo.proto" ∈ c1Expected.map FileDescriptorProto.name) ∧
    ("foo.proto" ∈ c1Expected.map FileDescriptorProto.name) := by
  refine ⟨by decide, by decide, by decide, by decide⟩

/-- C1 (amended): when a dependency lookup for `dep` returns files none
of which is named `dep` but one of which (the alias source) has a
non-empty name ending in `dep`, the resolver registers a deep clone of
the alias source under `dep` — same dependency list and content, name
rewritten — while the alias source's own (prefixed) name is deliberately
skipped: its binding is exactly what it was before the step, so a
fresh session's compiled set contains the aliased entry but not the
prefixed one. -/
theorem c1_alias_clone (dep : String) (depFiles : List FileDescriptorProto)
    (st : StitchState) (src : FileDescriptorProto)
    (hnodep : ∀ f ∈ depFiles, f.name ≠ dep)
    (hasn : aliasSourceNameOf dep depFiles ≠ "")
    (hfind : depFiles.find?
        (fun f => f.name == aliasSourceNameOf dep depFiles) = some src)
    (hnew : st.files.lookup dep = none) :
    (registerDep dep depFiles st).files.lookup dep =
        some { src with name := dep } ∧
    (registerDep dep depFiles st).files.lookup (aliasSourceNameOf dep depFiles) =
        st.files.lookup (aliasSourceNameOf dep depFiles) := by
  have hinv := registerLoop_inv dep (aliasSourceNameOf dep depFiles)
    depFiles hnodep hasn st false
  have hne := aliasSource_ne_dep dep depFiles hasn
  rcases hE : depFiles.foldl
      (registerStep dep (aliasSourceNameOf dep depFiles)) (st, false) with ⟨st1, r⟩
  rw [hE] at hinv
  obtain ⟨hr, hdep, hasn2⟩ := hinv
  have hreg : registerDep dep depFiles st =
      { files := st1.files ++ [(dep, { src with name := dep })]
      , queue := st1.queue ++ [dep] } := by
    simp only [registerDep, registerLoop, hE]
    rw [if_pos ⟨hr, hasn⟩, hfind]
  constructor
  · rw [hreg]
    show (st1.files ++ [(dep, { src with name := dep })]).lookup dep = _
    rw [lookup_append_single, hdep, hnew]
    simp
  · rw [hreg]
    show (st1.files ++ [(dep, { src with name := dep })]).lookup
        (aliasSourceNameOf dep depFiles) = _
    rw [lookup_append_single, hasn2]
    cases hl : st.files.lookup (aliasSourceNameOf dep depFiles)
    · simp [show (aliasSourceNameOf dep depFiles == dep) = false by simpa using hne]
    · simp

/-- C1 witness: the amended theorem applied to the
`protos/foo.proto` session on a fresh registry. -/
theorem c1_witness :
    (∀ f ∈ [({ name := "protos/foo.proto", dependency := [], content := "foo-content" } :
        FileDescriptorProto)], f.name ≠ "foo.proto") ∧
    aliasSourceNameOf "foo.proto"
      [{ name := "protos/foo.proto", dependency := [], content := "foo-content" }] ≠ "" ∧
    ((registerDep "foo.proto"
        [{ name := "protos/foo.proto", dependency := [], content := "foo-content" }]
        { files := [], queue := [] }).files.lookup "foo.proto" =
      some { name := "foo.proto", dependency := [], content := "foo-content" } ∧
    (registerDep "foo.proto"
        [{ name := "protos/foo.proto", dependency := [], content := "foo-content" }]
        { files := [], queue := [] }).files.lookup
        (aliasSourceNameOf "foo.proto"
          [{ name := "protos/foo.proto", dependency := [], content := "foo-content" }]) =
      ([] : List (String × FileDescriptorProto)).lookup
        (aliasSourceNameOf "foo.proto"
          [{ name := "protos/foo.proto", dependency := [], content := "foo-content" }])) :=
  ⟨by decide, by decide,
    c1_alias_clone "foo.proto"
      [{ name := "protos/foo.proto", dependency := [], content := "foo-content" }]
      { files := [], queue := [] }
      { name := "protos/foo.proto", dependency := [], content := "foo-content" }
      (by decide) (by decide) (by decide) (by decide)⟩

/-! ## C7 — verb mapper payloads (corrected) -/

theorem hexDigit_isHex (n : Nat) : isHexDigit (hexDigit n) = true := by
  unfold hexDigit
  by_cases h : n < 16
  · interval_cases n <;> decide
  · rw [List.getD_eq_default]
    · decide
    · simpa using Nat.le_of_not_lt h

/-- One `stringBody` step: the closing quote. -/
theorem stringBody_quote (tail : List Char) :
    stringBody ('"' :: tail) = some tail := by
  conv_lhs => unfold stringBody
  simp

/-- One `stringBody` step: a two-character escape. -/
theorem stringBody_escSimple (e : Char) (tail : List Char)
    (h : escSimple e = true) :
    stringBody ('\\' :: e :: tail) = stringBody tail := by
  conv_lhs => unfold stringBody
  simp +decide [h]

/-- One `stringBody` step: a `\u` escape with four hex digits. -/
theorem stringBody_unicode (a b c2 d : Char) (tail : List Char)
    (ha : isHexDigit a = true) (hb : isHexDigit b = true)
    (hc : isHexDigit c2 = true) (hd : isHexDigit d = true) :
    stringBody ('\\' :: 'u' :: a :: b :: c2 :: d :: tail) = stringBody tail := by
  conv_lhs => unfold stringBody
  simp +decide [ha, hb, hc, hd]

/-- One `stringBody` step: an unescaped non-control character. -/
theorem stringBody_plain (c : Char) (tail : List Char)
    (h1 : ¬ c = '"') (h2 : ¬ c = '\\') (h7 : ¬ c.toNat < 32) :
    stringBody (c :: tail) = stringBody tail := by
  conv_lhs => unfold stringBody
  rw [if_neg h1, if_neg h2, if_neg h7]

/-- Go's JSON escaper and the string-literal parser agree: the escaped
body of any string, followed by a closing quote, parses to exactly the
trailing input. -/
theorem stringBody_esc (l : List Char) (rest : List Char) :
    stringBody (escBodyChars l ++ '"' :: rest) = some rest := by
  induction l with
  | nil => simpa [escBodyChars] using stringBody_quote rest
  | cons c cs ih =>
    have hstep : escBodyChars (c :: cs) =
        escChar c ++ escBodyChars cs := by
      simp [escBodyChars]
    rw [hstep, List.append_assoc]
    by_cases h1 : c = '"'
    · subst h1
      rw [show escChar '"' = ['\\', '"'] from rfl]
      simp only [List.cons_append, List.nil_append]
      rw [stringBody_escSimple _ _ (by decide)]
      exact ih
    · by_cases h2 : c = '\\'
      · subst h2
        rw [show escChar '\\' = ['\\', '\\'] from rfl]
        simp only [List.cons_append, List.nil_append]
        rw [stringBody_escSimple _ _ (by decide)]
        exact ih
      · by_cases h3 : c = '\n'
        · subst h3
          rw [show escChar '\n' = ['\\', 'n'] from rfl]
          simp only [List.cons_append, List.nil_append]
          rw [stringBody_escSimple _ _ (by decide)]
          exact ih
        · by_cases h4 : c = '\r'
          · subst h4
            rw [show escChar '\r' = ['\\', 'r'] from rfl]
            simp only [List.cons_append, List.nil_append]
            rw [stringBody_escSimple _ _ (by decide)]
            exact ih
          · by_cases h5 : c = '\t'
            · subst h5
              rw [show escChar '\t' = ['\\', 't'] from rfl]
              simp only [List.cons_append, List.nil_append]
              rw [stringBody_escSimple _ _ (by decide)]
              exact ih
            · by_cases h6 : c = '<' ∨ c = '>' ∨ c = '&'
              · have he : escChar c =
                    ['\\', 'u', '0', '0', hexDigit (c.toNat / 16),
                      hexDigit (c.toNat % 16)] := by
                  simp [escChar, h1, h2, h3, h4, h5, h6]
                rw [he]
                simp only [List.cons_append, List.nil_append]
                rw [stringBody_unicode _ _ _ _ _ (by decide) (by decide)
                  (hexDigit_isHex _) (hexDigit_isHex _)]
                exact ih
              · by_cases h7 : c.toNat < 32
                · have he : escChar c =
                      ['\\', 'u', '0', '0', hexDigit (c.toNat / 16),
                        hexDigit (c.toNat % 16)] := by
                    simp [escChar, h1, h2, h3, h4, h5, h6, h7]
                  rw [he]
                  simp only [List.cons_append, List.nil_append]
                  rw [stringBody_unicode _ _ _ _ _ (by decide) (by decide)
                    (hexDigit_isHex _) (hexDigit_isHex _)]
                  exact ih
                · by_cases h8 : c.toNat = 8232 ∨ c.toNat = 8233
                  · have he : escChar c =
                        ['\\', 'u', '2', '0', '2', hexDigit (c.toNat % 16)] := by
                      simp [escChar, h1, h2, h3, h4, h5, h6, h7, h8]
                    rw [he]
                    simp only [List.cons_append, List.nil_append]
                    rw [stringBody_unicode _ _ _ _ _ (by decide) (by decide)
                      (by decide) (hexDigit_isHex _)]
                    exact ih
                  · have he : escChar c = [c] := by
                      simp [escChar, h1, h2, h3, h4, h5, h6, h7, h8]
                    rw [he]
                    simp only [List.cons_append, List.nil_append]
                    rw [stringBody_plain _ _ h1 h2 h7]
                    exact ih

/-- The character stream of a marshalled one-field object. -/
theorem marshal_data (key val : String) :
    (goMarshalField key val).data =
      lbrace :: '"' :: (escBodyChars key.data ++
        ('"' :: ':' :: '"' :: (escBodyChars val.data ++ ['"', rbrace]))) := by
  simp [goMarshalField, goQuote, lbraceS, rbraceS, escBodyChars,
    List.append_assoc]

/-- A one-pair object body parses when its key string and its value
parse. -/
theorem parseMembers_single (k : Nat) (body tail : List Char)
    (hbody : stringBody body = some (':' :: tail))
    (hval : parseValue (k + 1) tail = some [rbrace]) :
    parseMembers (k + 2) ('"' :: body) = some [] := by
  show parseMembers ((k + 1) + 1) ('"' :: body) = some []
  simp +decide [parseMembers, skipWs, hbody, hval]

/-- Parsing a marshalled one-field object consumes the whole input
(with any fuel of the form `k + 3`). -/
theorem parse_marshal_chars (kl vl : List Char) (k : Nat) :
    parseValue (k + 3)
      (lbrace :: '"' :: (escBodyChars kl ++
        ('"' :: ':' :: '"' :: (escBodyChars vl ++ ['"', rbrace])))) = some [] := by
  have hval : parseValue (k + 1)
      ('"' :: (escBodyChars vl ++ ['"', rbrace])) = some [rbrace] := by
    have hred : parseValue (k + 1)
        ('"' :: (escBodyChars vl ++ ['"', rbrace])) =
        stringBody (escBodyChars vl ++ ['"', rbrace]) := rfl
    rw [hred]
    exact stringBody_esc vl [rbrace]
  have hbody : stringBody (escBodyChars kl ++
      ('"' :: ':' :: '"' :: (escBodyChars vl ++ ['"', rbrace]))) =
      some (':' :: '"' :: (escBodyChars vl ++ ['"', rbrace])) :=
    stringBody_esc kl (':' :: '"' :: (escBodyChars vl ++ ['"', rbrace]))
  have hmem := parseMembers_single k
    (escBodyChars kl ++ ('"' :: ':' :: '"' :: (escBodyChars vl ++ ['"', rbrace])))
    ('"' :: (escBodyChars vl ++ ['"', rbrace])) hbody hval
  have houter : parseValue ((k + 2) + 1)
      (lbrace :: '"' :: (escBodyChars kl ++
        ('"' :: ':' :: '"' :: (escBodyChars vl ++ ['"', rbrace])))) =
      parseMembers (k + 2)
        ('"' :: (escBodyChars kl ++
          ('"' :: ':' :: '"' :: (escBodyChars vl ++ ['"', rbrace])))) := rfl
  show parseValue ((k + 2) + 1) _ = some []
  rw [houter]
  exact hmem

/-- The payloads the mapper marshals itself are valid JSON. -/
theorem jsonValid_goMarshalField (key val : String) :
    jsonValid (goMarshalField key val) = true := by
  have hdata := marshal_data key val
  have hlen : (goMarshalField key val).length + 1 =
      (escBodyChars key.data ++
        ('"' :: ':' :: '"' :: (escBodyChars val.data ++ ['"', rbrace]))).length + 3 := by
    show (goMarshalField key val).data.length + 1 = _
    rw [hdata]
    simp
  unfold jsonValid
  rw [hlen, hdata, parse_marshal_chars]
  rfl

theorem jsonValid_empty : jsonValid emptyJSONObject = true := by decide

/-- C7 counterexample: the mapper is happy to emit an invalid payload —
a lone `{` argument is JSON-looking, passes through verbatim, and is
not valid JSON. -/
theorem c7_counterexample :
    mapHolonCommandToRPC "list" [lbraceS] =
      Except.ok ("ListIdentities", lbraceS) ∧
    looksLikeJSON lbraceS = true ∧
    jsonValid lbraceS = false := by
  refine ⟨by decide, by decide, by decide⟩

/-- C7 (amended): `mapVerb` is pure by construction; `show` and `pin`
without a UUID positional fail pre-flight with their exact usage
errors; and every payload the mapper *itself* constructs is valid JSON
— a payload can only be invalid when it is a JSON-looking user argument
passed through verbatim. -/
theorem c7_verb_mapping (arg0 : String) (rest : List String) :
    (toLowerStr (trimSpace arg0) = "show" → rest = [] →
      mapHolonCommandToRPC arg0 rest = Except.error "show requires <uuid>") ∧
    (toLowerStr (trimSpace arg0) = "pin" → rest = [] →
      mapHolonCommandToRPC arg0 rest = Except.error "pin requires <uuid>") ∧
    (∀ method payload,
      mapHolonCommandToRPC arg0 rest = Except.ok (method, payload) →
      jsonValid payload = true ∨
        (looksLikeJSON payload = true ∧ ∃ r2, rest = payload :: r2)) := by
  refine ⟨?_, ?_, ?_⟩
  · intro hkey hrest; subst hrest
    simp +decide [mapHolonCommandToRPC, mapVerbPayload, hkey]
  · intro hkey hrest; subst hrest
    simp +decide [mapHolonCommandToRPC, mapVerbPayload, hkey]
  · intro method payload hok
    cases rest with
    | nil =>
      left
      simp only [mapHolonCommandToRPC, mapVerbPayload] at hok
      split_ifs at hok with hl hs hp
      all_goals
        first
          | (simp only [Except.ok.injEq, Prod.mk.injEq] at hok
             exact hok.2 ▸ jsonValid_empty)
          | simp at hok
    | cons a r2 =>
      simp only [mapHolonCommandToRPC] at hok
      by_cases hj : looksLikeJSON a = true
      · right
        rw [if_pos hj] at hok
        simp only [Except.ok.injEq, Prod.mk.injEq] at hok
        exact ⟨hok.2 ▸ hj, r2, by rw [hok.2]⟩
      · left
        rw [if_neg hj] at hok
        simp only [mapVerbPayload] at hok
        split_ifs at hok with hl hs hp
        all_goals
          simp only [Except.ok.injEq, Prod.mk.injEq] at hok
        all_goals
          first
            | exact hok.2 ▸ jsonValid_goMarshalField _ _
            | exact hok.2 ▸ jsonValid_empty

/-- C7 witness: `show` with no UUID fails pre-flight with its exact
message. -/
theorem c7_witness :
    toLowerStr (trimSpace "show") = "show" ∧
    mapHolonCommandToRPC "show" [] = Except.error "show requires <uuid>" :=
  ⟨by decide, (c7_verb_mapping "show" []).1 (by decide) rfl⟩

end OP